import Mathlib

/-!
Shallow embedding of `src/outrigger/junctions_to_events.py`.

`JunctionAggregator` builds a direction-labelled graph over exons and
junctions (one shared index namespace) from a table of
(exon, direction, junction) triples, then walks that graph to detect
skipped-exon and mutually-exclusive-exon splicing events;
`consolidate_junction_events` picks one canonical event among duplicates.

Modelling conventions:
* the graphlite store is a list of edges `(src, relation, dst)` in insertion
  order; `find`/`traverse` filter that list in order (SQLite rowid order),
  and SQL INTERSECT, as well as the python set intersections of the source,
  yield the distinct common values in ascending order;
* pandas dataframes are lists of rows, and the pandas/python exceptions the
  source can raise are modelled with `Except`;
* Python 2 semantics are assumed (`map` returns a list);
* `numpy.random.choice` is an oracle parameter `pick`, and CPython's
  arbitrary `set.pop` is refined to the least element of the set.
-/

deriving instance DecidableEq for Except

def UPSTREAM : String := "upstream"

def DOWNSTREAM : String := "downstream"

def DIRECTIONS : List String := [UPSTREAM, DOWNSTREAM]

/-- Source `opposite`: `UPSTREAM if direction == DOWNSTREAM else DOWNSTREAM`. -/
def opposite (direction : String) : String :=
  if direction == DOWNSTREAM then UPSTREAM else DOWNSTREAM

/-- Geometry of an item string, supplied by the external interval collaborator. -/
structure RegionData where
  chrom : String
  start : Int
  stop : Int
  strand : String
deriving DecidableEq

/-- Modelled from the spec: class `Region` of `outrigger.region` is not under
`src/`. Per the spec a region is a read-only view of an item's genomic
interval exposing chromosome, start, stop, strand and `name` = the original
item string. -/
structure Region where
  chrom : String
  start : Int
  stop : Int
  strand : String
  name : String
deriving DecidableEq

/-- Modelled from the spec: `Region(item)` parses the item string; we take the
geometry from the external parameter `geom` and keep the string as `name`. -/
def mkRegion (geom : String → RegionData) (s : String) : Region :=
  ⟨(geom s).chrom, (geom s).start, (geom s).stop, (geom s).strand, s⟩

/-- Modelled from the spec: two regions overlap iff their chromosome and
strand match and their [start, stop) intervals intersect. -/
def Region.overlaps (a b : Region) : Bool :=
  a.chrom == b.chrom && a.strand == b.strand &&
    decide (a.start < b.stop) && decide (b.start < a.stop)

/-- Python `min((a, b), key=lambda x: x.start)`: the first minimum. -/
def pyMinStart (a b : Region) : Region := if b.start < a.start then b else a

/-- Python `max((a, b), key=lambda x: x.start)`: the first maximum. -/
def pyMaxStart (a b : Region) : Region := if a.start < b.start then b else a

/-- One row of the `junction_exon_triples` table. -/
structure Triple where
  exon : String
  direction : String
  junction : String
deriving DecidableEq

def uniqueAux : List String → List String → List String
  | [], _ => []
  | x :: xs, seen => if seen.contains x then uniqueAux xs seen else x :: uniqueAux xs (x :: seen)

/-- pandas `.unique()`: the distinct values in order of first appearance. -/
def uniqueKeepFirst (l : List String) : List String := uniqueAux l []

/-- `self.exons = junction_exon_triples[exon_col].unique()`. -/
def exonsOf (triples : List Triple) : List String :=
  uniqueKeepFirst (triples.map Triple.exon)

/-- `self.junctions = junction_exon_triples[junction_col].unique()`. -/
def junctionsOf (triples : List Triple) : List String :=
  uniqueKeepFirst (triples.map Triple.junction)

/-- `self.items = tuple(np.concatenate([self.exons, self.junctions]))`. -/
def itemsOf (triples : List Triple) : List String :=
  exonsOf triples ++ junctionsOf triples

/-- Python `tuple.index`: position of the first occurrence. Total here; it
returns the length when the item is absent, a case the source never reaches
because the item universe is built from the triples themselves. -/
def itemIndex (s : String) : List String → Nat
  | [] => 0
  | x :: xs => if x == s then 0 else itemIndex s xs + 1

/-- A stored graphlite edge `(src, relation, dst)`. -/
abbrev Edge := Nat × String × Nat

/-- The two stores for one triple row: the edge
`(exon_i, direction, junction_i)` and its mirror
`(junction_i, opposite(direction), exon_i)`. -/
def storeTriple (items : List String) (t : Triple) : List Edge :=
  [(itemIndex t.exon items, t.direction, itemIndex t.junction items),
   (itemIndex t.junction items, opposite t.direction, itemIndex t.exon items)]

def graphEdges (items : List String) : List Triple → List Edge
  | [] => []
  | t :: ts => storeTriple items t ++ graphEdges items ts

/-- Graph construction. graphlite only has tables for the registered
relations `upstream` and `downstream`; storing an edge with any other
relation name raises, aborting the transaction, so no graph is produced. -/
def buildGraph (triples : List Triple) (items : List String) : Except String (List Edge) :=
  if triples.all (fun t => t.direction == UPSTREAM || t.direction == DOWNSTREAM) then
    Except.ok (graphEdges items triples)
  else
    Except.error "no such table"

/-- graphlite `graph.find(V().rel(dst))`: sources of rel-edges into `dst`,
in storage order. -/
def findSources (E : List Edge) (rel : String) (dst : Nat) : List Nat :=
  (E.filter (fun e => e.2.1 == rel && e.2.2 == dst)).map (fun e => e.1)

/-- graphlite `graph.find(V(src).rel)`: destinations of rel-edges out of
`src`, in storage order. -/
def findDests (E : List Edge) (rel : String) (src : Nat) : List Nat :=
  (E.filter (fun e => e.1 == src && e.2.1 == rel)).map (fun e => e.2.2)

/-- graphlite `.traverse(V().rel)`: destinations of rel-edges whose source is
in the previous result set (SQL `IN`), in storage order. -/
def traverseQ (E : List Edge) (rel : String) (prev : List Nat) : List Nat :=
  (E.filter (fun e => e.2.1 == rel && prev.contains e.1)).map (fun e => e.2.2)

def insertSorted (x : Nat) : List Nat → List Nat
  | [] => [x]
  | y :: ys => if x ≤ y then x :: y :: ys else y :: insertSorted x ys

def sortNat (l : List Nat) : List Nat := l.foldr insertSorted []

def dedupNat : List Nat → List Nat
  | [] => []
  | x :: xs => if (dedupNat xs).contains x then dedupNat xs else x :: dedupNat xs

/-- SQL INTERSECT (and the python set intersections of the source): the
distinct common values, in ascending order. -/
def setInterSorted (a b : List Nat) : List Nat :=
  sortNat (dedupNat (a.filter (fun x => b.contains x)))

/-- `itertools.combinations(l, 2)`, in order. -/
def combos2 {α : Type} : List α → List (α × α)
  | [] => []
  | x :: xs => xs.map (fun y => (x, y)) ++ combos2 xs

/-- Python dict assignment `events[k] = v`: overwrite in place, or append. -/
def insertEvent {κ β : Type} [BEq κ] (ev : List (κ × β)) (k : κ) (v : β) : List (κ × β) :=
  if ev.any (fun e => e.1 == k) then ev.map (fun e => if e.1 == k then (k, v) else e)
  else ev ++ [(k, v)]

/-- The skipped-exon / MXE "exon2/3" candidates two hops from `exon1`:
`graph.find(V().downstream(exon1_i)).traverse(V().upstream)` mapped back to
regions via `item_to_region`. -/
def seCandidateRegions (E : List Edge) (items : List String) (geom : String → RegionData)
    (exon1 : String) : List Region :=
  (traverseQ E UPSTREAM (findSources E DOWNSTREAM (itemIndex exon1 items))).map
    (fun i => mkRegion geom (items.getD i ""))

abbrev SEKey := String × String × String

/-- The guard `len(exon23_junction) > 0`:
`graph.find(V(exon2_i).upstream).intersection(V().upstream(exon3_i))`
is nonempty. -/
def seAccept (E : List Edge) (items : List String) (n2 n3 : String) : Bool :=
  !(setInterSorted (findDests E UPSTREAM (itemIndex n2 items))
      (findSources E UPSTREAM (itemIndex n3 items))).isEmpty

/-- `itertools.chain(exon12_junction, exon23_junction, exon13_junction)`
mapped back to item strings; each part is an intersection of two one-hop
queries. -/
def seJunctions (E : List Edge) (items : List String) (n1 n2 n3 : String) : List String :=
  let e1i := itemIndex n1 items
  let e2i := itemIndex n2 items
  let e3i := itemIndex n3 items
  let exon13 := setInterSorted (findDests E UPSTREAM e1i) (findDests E DOWNSTREAM e3i)
  let exon12 := setInterSorted (findDests E UPSTREAM e1i) (findDests E DOWNSTREAM e2i)
  let exon23 := setInterSorted (findDests E UPSTREAM e2i) (findDests E DOWNSTREAM e3i)
  (exon12 ++ exon23 ++ exon13).map (fun i => items.getD i "")

/-- The body of the skipped-exon pair loop: skip overlapping candidates,
order the pair by start, require a shared exon2-upstream/exon3-upstream
junction, then record the event. -/
def sePairStep (E : List Edge) (items : List String) (exon1 : String)
    (ev : List (SEKey × List String)) (pq : Region × Region) : List (SEKey × List String) :=
  if Region.overlaps pq.1 pq.2 then ev
  else if seAccept E items (pyMinStart pq.1 pq.2).name (pyMaxStart pq.1 pq.2).name then
    insertEvent ev (exon1, (pyMinStart pq.1 pq.2).name, (pyMaxStart pq.1 pq.2).name)
      (seJunctions E items exon1 (pyMinStart pq.1 pq.2).name (pyMaxStart pq.1 pq.2).name)
  else ev

def seExonStep (E : List Edge) (items : List String) (geom : String → RegionData)
    (ev : List (SEKey × List String)) (exon1 : String) : List (SEKey × List String) :=
  (combos2 (seCandidateRegions E items geom exon1)).foldl (sePairStep E items exon1) ev

/-- The `events` dict accumulated over all exons by `skipped_exon`. -/
def seEventsDict (E : List Edge) (items : List String) (geom : String → RegionData)
    (exons : List String) : List (SEKey × List String) :=
  exons.foldl (seExonStep E items geom) []

structure SERow where
  exon1 : String
  exon2 : String
  exon3 : String
  junction12 : String
  junction23 : String
  junction13 : String
  event_id : String
deriving DecidableEq

/-- `event_dict_to_df` for skipped exons: one row per event, with
`event_id = '@'.join(exons)`. Assigning the junction list to the three
junction columns raises in pandas unless it has exactly three entries. -/
def seEventsToDf : List (SEKey × List String) → Except String (List SERow)
  | [] => Except.ok []
  | (k, js) :: rest =>
    match js with
    | [j12, j23, j13] =>
      match seEventsToDf rest with
      | Except.ok rows =>
        Except.ok (⟨k.1, k.2.1, k.2.2, j12, j23, j13,
          String.intercalate "@" [k.1, k.2.1, k.2.2]⟩ :: rows)
      | Except.error e => Except.error e
    | _ => Except.error "cannot set using a list-like indexer with a different length"

/-- `JunctionAggregator(triples).skipped_exon()`. -/
def skippedExon (triples : List Triple) (geom : String → RegionData) :
    Except String (List SERow) :=
  match buildGraph triples (itemsOf triples) with
  | Except.error e => Except.error e
  | Except.ok E => seEventsToDf (seEventsDict E (itemsOf triples) geom (exonsOf triples))

/-- The MXE exon2/3 candidates: the intersection of the two-hop set from
`exon1` with the set reached through exon4 (three hops up, two hops down),
mapped back to regions. -/
def mxeCandidateRegions (E : List Edge) (items : List String) (geom : String → RegionData)
    (exon1 : String) : List Region :=
  let exon1i := itemIndex exon1 items
  let from1 := traverseQ E UPSTREAM (findSources E DOWNSTREAM exon1i)
  let exon4s := traverseQ E UPSTREAM (traverseQ E UPSTREAM
    (traverseQ E UPSTREAM (findSources E DOWNSTREAM exon1i)))
  let from4 := traverseQ E DOWNSTREAM (traverseQ E DOWNSTREAM exon4s)
  (setInterSorted from4 from1).map (fun i => mkRegion geom (items.getD i ""))

/-- `set(graph.find(V(i).upstream).traverse(V().upstream))`. -/
def twoHopUp (E : List Edge) (i : Nat) : List Nat :=
  traverseQ E UPSTREAM (findDests E UPSTREAM i)

/-- The common exon4 candidates `exon4_from2 & exon4_from3`, distinct and
ascending; `set.pop` is modelled as taking the head (the least element). -/
def mxeCommonExon4 (E : List Edge) (items : List String) (n2 n3 : String) : List Nat :=
  setInterSorted (twoHopUp E (itemIndex n2 items)) (twoHopUp E (itemIndex n3 items))

abbrev MXEKey := String × String × String × String

/-- `itertools.chain(exon13, exon34, exon12, exon24)` mapped back to item
strings. -/
def mxeJunctions (E : List Edge) (items : List String) (n1 n2 n3 : String) (e4i : Nat) :
    List String :=
  let e1i := itemIndex n1 items
  let e2i := itemIndex n2 items
  let e3i := itemIndex n3 items
  let exon13 := setInterSorted (findDests E UPSTREAM e1i) (findDests E DOWNSTREAM e3i)
  let exon34 := setInterSorted (findDests E UPSTREAM e3i) (findDests E DOWNSTREAM e4i)
  let exon12 := setInterSorted (findDests E UPSTREAM e1i) (findDests E DOWNSTREAM e2i)
  let exon24 := setInterSorted (findDests E UPSTREAM e2i) (findDests E DOWNSTREAM e4i)
  (exon13 ++ exon34 ++ exon12 ++ exon24).map (fun i => items.getD i "")

/-- The body of the MXE pair loop. When the common-exon4 intersection is
empty, `set().pop()` raises KeyError, which the bare `except` swallows: the
pair contributes nothing. -/
def mxePairStep (E : List Edge) (items : List String) (exon1 : String)
    (ev : List (MXEKey × List String)) (pq : Region × Region) : List (MXEKey × List String) :=
  if Region.overlaps pq.1 pq.2 then ev
  else
    match mxeCommonExon4 E items (pyMinStart pq.1 pq.2).name (pyMaxStart pq.1 pq.2).name with
    | [] => ev
    | e4i :: _ =>
      insertEvent ev
        (exon1, (pyMinStart pq.1 pq.2).name, (pyMaxStart pq.1 pq.2).name, items.getD e4i "")
        (mxeJunctions E items exon1 (pyMinStart pq.1 pq.2).name (pyMaxStart pq.1 pq.2).name e4i)

def mxeExonStep (E : List Edge) (items : List String) (geom : String → RegionData)
    (ev : List (MXEKey × List String)) (exon1 : String) : List (MXEKey × List String) :=
  (combos2 (mxeCandidateRegions E items geom exon1)).foldl (mxePairStep E items exon1) ev

/-- The `events` dict accumulated over all exons by `mutually_exclusive_exon`. -/
def mxeEventsDict (E : List Edge) (items : List String) (geom : String → RegionData)
    (exons : List String) : List (MXEKey × List String) :=
  exons.foldl (mxeExonStep E items geom) []

structure MXERow where
  exon1 : String
  exon2 : String
  exon3 : String
  exon4 : String
  junction13 : String
  junction34 : String
  junction12 : String
  junction24 : String
  event_id : String
deriving DecidableEq

/-- `event_dict_to_df` for MXE events: four junction columns. -/
def mxeEventsToDf : List (MXEKey × List String) → Except String (List MXERow)
  | [] => Except.ok []
  | (k, js) :: rest =>
    match js with
    | [j13, j34, j12, j24] =>
      match mxeEventsToDf rest with
      | Except.ok rows =>
        Except.ok (⟨k.1, k.2.1, k.2.2.1, k.2.2.2, j13, j34, j12, j24,
          String.intercalate "@" [k.1, k.2.1, k.2.2.1, k.2.2.2]⟩ :: rows)
      | Except.error e => Except.error e
    | _ => Except.error "cannot set using a list-like indexer with a different length"

/-- `JunctionAggregator(triples).mutually_exclusive_exon()`. -/
def mutuallyExclusiveExon (triples : List Triple) (geom : String → RegionData) :
    Except String (List MXERow) :=
  match buildGraph triples (itemsOf triples) with
  | Except.error e => Except.error e
  | Except.ok E => mxeEventsToDf (mxeEventsDict E (itemsOf triples) geom (exonsOf triples))

/-- A transcript feature from the annotation database; `tag` is its
(possibly absent, hence possibly empty) multi-valued tag attribute. -/
structure Feature where
  id : String
  tag : List String
deriving DecidableEq

/-- One row of a consolidation group: `event_id` plus the two transcript
columns. -/
structure CRow where
  event_id : String
  isoform1_transcripts : List String
  isoform2_transcripts : List String
deriving DecidableEq

def defaultCRow : CRow := ⟨"", [], []⟩

abbrev IsoCells := Option (List Feature) × Option (List Feature)

abbrev TagCells := Option (List String) × Option (List String)

/-- The result value of `consolidate_junction_events`: normally an event id,
but the no-tags branch returns a whole `df_isoforms` row instead. -/
inductive CResult where
  | eventId (s : String)
  | isoRow (c : IsoCells)
deriving DecidableEq

def enumFrom {α : Type} (n : Nat) : List α → List (Nat × α)
  | [] => []
  | x :: xs => (n, x) :: enumFrom (n + 1) xs

/-- One row of `df[transcript_cols].applymap(...)`: NaN (`none`) for an empty
transcript list, otherwise the features looked up in the database. -/
def isoformCells (db : String → Feature) (r : CRow) : IsoCells :=
  ((if r.isoform1_transcripts.isEmpty then none else some (r.isoform1_transcripts.map db)),
   (if r.isoform2_transcripts.isEmpty then none else some (r.isoform2_transcripts.map db)))

/-- `df_isoforms` after `dropna(how='all')`, keeping original row positions. -/
def dfIsoforms (db : String → Feature) (df : List CRow) : List (Nat × IsoCells) :=
  ((enumFrom 0 df).map (fun p => (p.1, isoformCells db p.2))).filter
    (fun p => p.2.1.isSome || p.2.2.isSome)

/-- `tuple(itertools.chain(*get_attribute(x, 'tag')))`: all the tags of a
cell's features, concatenated. -/
def concatTags (fs : List Feature) : List String :=
  fs.foldr (fun f acc => f.tag ++ acc) []

/-- `df_tags`: each resolved cell becomes the tuple of its features' tags.
The source then maps empty *lists* to NaN, but every cell is a tuple or a
float, so that applymap changes nothing; the following `dropna(how='all')`
keeps every row because each `df_isoforms` row has a resolved cell. -/
def dfTags (dfIso : List (Nat × IsoCells)) : List (Nat × TagCells) :=
  (dfIso.map (fun p => (p.1, (p.2.1.map concatTags, p.2.2.map concatTags)))).filter
    (fun p => p.2.1.isSome || p.2.2.isSome)

/-- One cell of `df_this_tag`: the list of per-tag-string `startswith`
booleans for a tuple cell; `none` plays the `False` of the NaN branch. -/
def tagCellMatch (tg : String) : Option (List String) → Option (List Bool)
  | some ts => some (ts.map (fun s => s.startsWith tg))
  | none => none

/-- pandas `.any(axis=1)` truth-tests each object cell: a nonempty list of
booleans is truthy no matter what it contains, an empty list or `False` is
falsy. -/
def cellTruthy : Option (List Bool) → Bool
  | some bs => !bs.isEmpty
  | none => false

def rowAnyTag (tg : String) (c : TagCells) : Bool :=
  cellTruthy (tagCellMatch tg c.1) || cellTruthy (tagCellMatch tg c.2)

/-- `df_this_tag.index[df_this_tag]`: the labels of the rows the tag test
flags. -/
def tagMatchRows (dfT : List (Nat × TagCells)) (tg : String) : List Nat :=
  (dfT.filter (fun p => rowAnyTag tg p.2)).map (fun p => p.1)

/-- `df.index` of a default-indexed group. -/
def rowIndices (df : List CRow) : List Nat := List.range df.length

def BEST_TAGS : List String := ["appris_principal", "appris_candidate", "CCDS", "basic"]

/-- The `for tag in BEST_TAGS` loop with its `else` clause. -/
def bestTagLoop (df : List CRow) (pick : List Nat → Nat) (dfT : List (Nat × TagCells)) :
    List String → String × CResult
  | [] => ("random,no good tags",
      CResult.eventId ((df.getD (pick (rowIndices df)) defaultCRow).event_id))
  | tg :: rest =>
    if (tagMatchRows dfT tg).isEmpty then bestTagLoop df pick dfT rest
    else ("best," ++ tg,
      CResult.eventId ((df.getD (pick (tagMatchRows dfT tg)) defaultCRow).event_id))

/-- `df_isoforms.loc[label]`: the first row with that label. -/
def isoLoc (dfIso : List (Nat × IsoCells)) (j : Nat) : IsoCells :=
  ((dfIso.filter (fun p => p.1 == j)).headD (0, (none, none))).2

/-- `consolidate_junction_events(df, db)`, with `numpy.random.choice`
supplied as the oracle `pick` and the annotation database as the total
lookup `db` (the spec's annotation collaborator returns a feature for a
transcript identifier). -/
def consolidate (db : String → Feature) (pick : List Nat → Nat) (df : List CRow) :
    String × CResult :=
  if df.length == 1 then ("only one", CResult.eventId ((df.getD 0 defaultCRow).event_id))
  else
    let dfIso := dfIsoforms db df
    if dfIso.isEmpty then
      ("random,no gencode transcripts",
        CResult.eventId ((df.getD (pick (rowIndices df)) defaultCRow).event_id))
    else if dfIso.length == 1 then
      ("one event with gencode transcripts",
        CResult.eventId ((df.getD (dfIso.headD (0, (none, none))).1 defaultCRow).event_id))
    else
      let dfT := dfTags dfIso
      if dfT.isEmpty then
        ("random df_isoforms", CResult.isoRow (isoLoc dfIso (pick (dfIso.map (fun p => p.1)))))
      else bestTagLoop df pick dfT BEST_TAGS

/-- A row "has resolvable (annotated) transcripts": at least one transcript
column is nonempty (the code's `len(x) == 0` test is the only way a row
drops out of `df_isoforms`). -/
def rowHasTranscripts (r : CRow) : Bool :=
  !r.isoform1_transcripts.isEmpty || !r.isoform2_transcripts.isEmpty

/-- The relation the detectors actually guarantee between the exon2 and
exon3 columns of an emitted event: either the very same item (reachable when
two non-overlapping candidates share a start coordinate, where python's
`min`/`max` both return the first element), or non-overlapping with strictly
increasing starts. -/
def orderedKeyPair (geom : String → RegionData) (x y : String) : Prop :=
  x = y ∨ (Region.overlaps (mkRegion geom x) (mkRegion geom y) = false ∧
    (mkRegion geom x).start < (mkRegion geom y).start)

/-- Geometry for the end-to-end scenario: three exons on one chromosome and
strand, in increasing start order, pairwise non-overlapping. -/
def geomC2 : String → RegionData := fun s =>
  if s == "e1" then ⟨"chr1", 100, 200, "+"⟩
  else if s == "e2" then ⟨"chr1", 300, 400, "+"⟩
  else if s == "e3" then ⟨"chr1", 500, 600, "+"⟩
  else ⟨"chr1", 0, 0, "+"⟩

/-- The six triples of the end-to-end skipped-exon scenario. -/
def triplesC2 : List Triple :=
  [⟨"e1", UPSTREAM, "j1"⟩, ⟨"e2", DOWNSTREAM, "j1"⟩,
   ⟨"e2", UPSTREAM, "j2"⟩, ⟨"e3", DOWNSTREAM, "j2"⟩,
   ⟨"e1", UPSTREAM, "j3"⟩, ⟨"e3", DOWNSTREAM, "j3"⟩]

/-- Geometry placing `e1` to the right of `e2` and `e3`. -/
def geomC3 : String → RegionData := fun s =>
  if s == "e1" then ⟨"chr1", 500, 550, "+"⟩
  else if s == "e2" then ⟨"chr1", 100, 200, "+"⟩
  else if s == "e3" then ⟨"chr1", 300, 400, "+"⟩
  else ⟨"chr1", 0, 0, "+"⟩

/-- Geometry where `e1` overlaps `e2`. -/
def geomC4 : String → RegionData := fun s =>
  if s == "e1" then ⟨"chr1", 100, 200, "+"⟩
  else if s == "e2" then ⟨"chr1", 150, 250, "+"⟩
  else if s == "e3" then ⟨"chr1", 300, 400, "+"⟩
  else ⟨"chr1", 0, 0, "+"⟩

/-- A well-formed triple table on which the skipped-exon run raises: two
junctions `ja`, `jb` both lie upstream of `e1` and downstream of `e2`, so
the accepted event carries four junctions for three junction columns. -/
def triplesC5 : List Triple :=
  [⟨"e1", UPSTREAM, "ja"⟩, ⟨"e2", DOWNSTREAM, "ja"⟩,
   ⟨"e1", UPSTREAM, "jb"⟩, ⟨"e2", DOWNSTREAM, "jb"⟩,
   ⟨"e2", UPSTREAM, "j2"⟩, ⟨"e3", DOWNSTREAM, "j2"⟩,
   ⟨"e1", UPSTREAM, "j3"⟩, ⟨"e3", DOWNSTREAM, "j3"⟩]

/-- A database where every transcript resolves to a tagless feature. -/
def dbW : String → Feature := fun s => ⟨s, []⟩

/-- A concrete random oracle: always the first index. -/
def pickW : List Nat → Nat := fun l => l.headD 0

/-- Two rows, neither with transcripts. -/
def dfC6 : List CRow := [⟨"x", [], []⟩, ⟨"y", [], []⟩]

/-- Two rows, only the second with transcripts. -/
def dfC7 : List CRow := [⟨"ev0", [], []⟩, ⟨"ev1", ["t1"], []⟩]

/-- Two rows, both with transcripts. -/
def dfC8 : List CRow := [⟨"ev0", ["t0"], []⟩, ⟨"ev1", ["t1"], []⟩]

/-- A database where every transcript's only tag is `basic`, matching no
earlier priority prefix. -/
def dbBasic : String → Feature := fun s => ⟨s, ["basic"]⟩

/-- A database where `t0` carries the top-priority tag and everything else
is untagged. -/
def dbTop : String → Feature := fun s =>
  if s == "t0" then ⟨"t0", ["appris_principal"]⟩ else ⟨s, []⟩

/-- C10: `opposite` maps `upstream` to `downstream` and back, hence is an
involution on the two valid directions; it is total over all strings,
sending every input other than `downstream` (including invalid direction
strings) to `downstream`, so the involution property fails outside the two
valid directions. -/
theorem c10_opposite_involution_on_directions :
    opposite UPSTREAM = DOWNSTREAM ∧ opposite DOWNSTREAM = UPSTREAM ∧
    (∀ d ∈ DIRECTIONS, opposite (opposite d) = d) ∧
    (∀ s : String, s ≠ DOWNSTREAM → opposite s = DOWNSTREAM) ∧
    (∀ s : String, s ∉ DIRECTIONS → opposite (opposite s) ≠ s) := by
  have hval : ∀ s : String, s ≠ DOWNSTREAM → opposite s = DOWNSTREAM := by
    intro s hs
    simp [opposite, hs]
  refine ⟨by decide, by decide, ?_, hval, ?_⟩
  · intro d hd
    have : d = UPSTREAM ∨ d = DOWNSTREAM := by simpa [DIRECTIONS] using hd
    rcases this with h | h <;> subst h <;> decide
  · intro s hs
    have h1 : s ≠ DOWNSTREAM := by
      intro h
      exact hs (by simp [DIRECTIONS, h])
    have h2 : s ≠ UPSTREAM := by
      intro h
      exact hs (by simp [DIRECTIONS, h])
    rw [hval s h1]
    intro h
    exact h2 (by rw [← h]; decide)

/-- Witness for C10 at the invalid direction string `sideways`. -/
theorem c10_witness :
    opposite "sideways" = DOWNSTREAM ∧ opposite (opposite "sideways") ≠ "sideways" :=
  ⟨c10_opposite_involution_on_directions.2.2.2.1 "sideways" (by decide),
   c10_opposite_involution_on_directions.2.2.2.2 "sideways" (by decide)⟩

/-- C2: on exactly the six scenario triples, with e1, e2, e3 in strictly
increasing start order and pairwise non-overlapping, the skipped-exon
detector returns exactly one row, the exon tuple (e1, e2, e3) with
junction12 = j1, junction23 = j2 and junction13 = j3. -/
theorem c2_skipped_exon_end_to_end :
    skippedExon triplesC2 geomC2 =
      Except.ok [⟨"e1", "e2", "e3", "j1", "j2", "j3", "e1@e2@e3"⟩] := by decide

/-- Counterexample to C3: a run whose emitted row has exon1 strictly to the
right of exon2, so the exon columns are not strictly increasing by start. -/
theorem c3_counterexample :
    skippedExon triplesC2 geomC3 =
      Except.ok [⟨"e1", "e2", "e3", "j1", "j2", "j3", "e1@e2@e3"⟩] ∧
    (mkRegion geomC3 "e2").start < (mkRegion geomC3 "e1").start := by decide

/-- Counterexample to C4: a run whose emitted row has exon1 overlapping
exon2. -/
theorem c4_counterexample :
    skippedExon triplesC2 geomC4 =
      Except.ok [⟨"e1", "e2", "e3", "j1", "j2", "j3", "e1@e2@e3"⟩] ∧
    Region.overlaps (mkRegion geomC4 "e1") (mkRegion geomC4 "e2") = true := by decide

/-- Counterexample to C5: a well-formed triple table (all ids in the item
universe, all directions valid) on which the skipped-exon run raises
mid-run, while assembling the result table. -/
theorem c5_counterexample :
    skippedExon triplesC5 geomC2 =
      Except.error "cannot set using a list-like indexer with a different length" := by decide

/-- C9: in the MXE detector, a candidate pair whose common-exon4
intersection is empty is skipped silently: the pair contributes no event and
the (total) pair step returns the accumulator unchanged, the KeyError from
`set().pop()` being swallowed by the bare `except`. -/
theorem c9_mxe_empty_common_exon4_skipped (E : List Edge) (items : List String)
    (exon1 : String) (ev : List (MXEKey × List String)) (a b : Region)
    (hov : Region.overlaps a b = false)
    (hempty : mxeCommonExon4 E items (pyMinStart a b).name (pyMaxStart a b).name = []) :
    mxePairStep E items exon1 ev (a, b) = ev := by
  simp [mxePairStep, hov, hempty]

/-- Witness for C9: two non-overlapping regions on different chromosomes
over the empty graph. -/
theorem c9_witness :
    mxePairStep ([] : List Edge) [] "e" []
      (⟨"c1", 0, 1, "+", "x"⟩, ⟨"c2", 0, 1, "+", "y"⟩) = [] :=
  c9_mxe_empty_common_exon4_skipped [] [] "e" [] ⟨"c1", 0, 1, "+", "x"⟩ ⟨"c2", 0, 1, "+", "y"⟩
    (by decide) (by decide)

theorem opposite_upstream : opposite UPSTREAM = DOWNSTREAM := by decide

theorem opposite_downstream : opposite DOWNSTREAM = UPSTREAM := by decide

theorem upstream_ne_downstream : UPSTREAM ≠ DOWNSTREAM := by decide

theorem mem_graphEdges (items : List String) (e : Edge) (ts : List Triple) :
    e ∈ graphEdges items ts ↔ ∃ t, t ∈ ts ∧ e ∈ storeTriple items t := by
  induction ts with
  | nil => simp [graphEdges]
  | cons t ts ih =>
    simp only [graphEdges, List.mem_append, ih, List.mem_cons]
    constructor
    · rintro (h | ⟨u, hu, he⟩)
      · exact ⟨t, Or.inl rfl, h⟩
      · exact ⟨u, Or.inr hu, he⟩
    · rintro ⟨u, (rfl | hu), he⟩
      · exact Or.inl he
      · exact Or.inr ⟨u, hu, he⟩

theorem storeTriple_symm (items : List String) (t : Triple)
    (hd : t.direction = UPSTREAM ∨ t.direction = DOWNSTREAM) (a b : Nat) :
    ((a, UPSTREAM, b) : Edge) ∈ storeTriple items t ↔
      ((b, DOWNSTREAM, a) : Edge) ∈ storeTriple items t := by
  rcases hd with hd | hd <;>
    simp [storeTriple, hd, opposite_upstream, opposite_downstream, Prod.ext_iff,
      upstream_ne_downstream, Ne.symm upstream_ne_downstream] <;>
    tauto

/-- C1: for every graph the builder produces, each input triple's edge
`(exon_i, direction, junction_i)` and its mirror
`(junction_i, opposite(direction), exon_i)` are both stored, and the graph
is symmetric: it holds `(a, upstream, b)` iff it holds `(b, downstream, a)`. -/
theorem c1_builder_graph_symmetric (triples : List Triple) (items : List String)
    (g : List Edge) (h : buildGraph triples items = Except.ok g) :
    (∀ t ∈ triples,
      ((itemIndex t.exon items, t.direction, itemIndex t.junction items) : Edge) ∈ g ∧
      ((itemIndex t.junction items, opposite t.direction, itemIndex t.exon items) : Edge) ∈ g) ∧
    (∀ a b : Nat, ((a, UPSTREAM, b) : Edge) ∈ g ↔ ((b, DOWNSTREAM, a) : Edge) ∈ g) := by
  unfold buildGraph at h
  split at h
  case isTrue hall =>
    injection h with h
    subst h
    have hvalid : ∀ t ∈ triples, t.direction = UPSTREAM ∨ t.direction = DOWNSTREAM := by
      intro t ht
      have h2 : (t.direction == UPSTREAM || t.direction == DOWNSTREAM) = true := by
        rw [List.all_eq_true] at hall
        exact hall t ht
      simpa [beq_iff_eq] using h2
    constructor
    · intro t ht
      exact ⟨(mem_graphEdges items _ triples).mpr ⟨t, ht, by simp [storeTriple]⟩,
             (mem_graphEdges items _ triples).mpr ⟨t, ht, by simp [storeTriple]⟩⟩
    · intro a b
      constructor
      · intro hm
        rcases (mem_graphEdges items _ triples).mp hm with ⟨t, ht, he⟩
        exact (mem_graphEdges items _ triples).mpr
          ⟨t, ht, (storeTriple_symm items t (hvalid t ht) a b).mp he⟩
      · intro hm
        rcases (mem_graphEdges items _ triples).mp hm with ⟨t, ht, he⟩
        exact (mem_graphEdges items _ triples).mpr
          ⟨t, ht, (storeTriple_symm items t (hvalid t ht) a b).mpr he⟩
  case isFalse => simp at h

/-- Witness for C1 on a one-triple build. -/
theorem c1_witness :
    ((0, UPSTREAM, 1) : Edge) ∈ graphEdges (itemsOf [⟨"e", UPSTREAM, "j"⟩]) [⟨"e", UPSTREAM, "j"⟩] ↔
      ((1, DOWNSTREAM, 0) : Edge) ∈ graphEdges (itemsOf [⟨"e", UPSTREAM, "j"⟩]) [⟨"e", UPSTREAM, "j"⟩] :=
  (c1_builder_graph_symmetric [⟨"e", UPSTREAM, "j"⟩] (itemsOf [⟨"e", UPSTREAM, "j"⟩])
    (graphEdges (itemsOf [⟨"e", UPSTREAM, "j"⟩]) [⟨"e", UPSTREAM, "j"⟩]) (by decide)).2 0 1

theorem getD_mem {α : Type} (l : List α) (d : α) : ∀ i, i < l.length → l.getD i d ∈ l := by
  induction l with
  | nil => intro i h; simp at h
  | cons x xs ih =>
    intro i h
    cases i with
    | zero => simp
    | succ j =>
      simp only [List.getD_cons_succ]
      exact List.mem_cons_of_mem _ (ih j (by simpa using h))

theorem mem_enumFrom {α : Type} {l : List α} :
    ∀ {n : Nat} {p : Nat × α}, p ∈ enumFrom n l → ∀ d : α,
      n ≤ p.1 ∧ p.1 - n < l.length ∧ l.getD (p.1 - n) d = p.2 := by
  induction l with
  | nil => intro n p h d; simp [enumFrom] at h
  | cons x xs ih =>
    intro n p h d
    rcases List.mem_cons.mp h with h | h
    · subst h
      simp
    · obtain ⟨h1, h2, h3⟩ := ih h d
      refine ⟨by omega, by simp; omega, ?_⟩
      have hk : p.1 - n = (p.1 - (n + 1)) + 1 := by omega
      rw [hk, List.getD_cons_succ]
      exact h3

theorem dfIsoforms_fst_lt {db : String → Feature} {df : List CRow} {p : Nat × IsoCells}
    (h : p ∈ dfIsoforms db df) : p.1 < df.length := by
  unfold dfIsoforms at h
  rcases List.mem_map.mp (List.mem_filter.mp h).1 with ⟨q, hq, hpq⟩
  have hb := (mem_enumFrom hq defaultCRow).2.1
  have : p.1 = q.1 := by rw [← hpq]
  omega

theorem dfIsoforms_pred {db : String → Feature} {df : List CRow} {p : Nat × IsoCells}
    (h : p ∈ dfIsoforms db df) : (p.2.1.isSome || p.2.2.isSome) = true :=
  (List.mem_filter.mp h).2

theorem dfTags_of_dfIsoforms_ne_nil (db : String → Feature) (df : List CRow)
    (h : dfIsoforms db df ≠ []) : dfTags (dfIsoforms db df) ≠ [] := by
  rcases hne : dfIsoforms db df with _ | ⟨p, rest⟩
  · exact absurd hne h
  · have hp : p ∈ dfIsoforms db df := by rw [hne]; exact List.mem_cons_self _ _
    have hpred := dfIsoforms_pred hp
    have hmapped : ((p.2.1.map concatTags).isSome || (p.2.2.map concatTags).isSome) = true := by
      cases h1 : p.2.1 <;> cases h2 : p.2.2 <;> simp_all
    have hor : p.2.1.isSome = true ∨ p.2.2.isSome = true := by simpa using hpred
    simp only [dfTags, hne]
    simp [List.filter_cons, hor]

theorem dfTags_fst_lt (db : String → Feature) (df : List CRow) :
    ∀ j ∈ (dfTags (dfIsoforms db df)).map (fun p => p.1), j < df.length := by
  intro j hj
  rcases List.mem_map.mp hj with ⟨p, hp, hpj⟩
  rcases List.mem_map.mp (List.mem_filter.mp hp).1 with ⟨q, hq, hpq⟩
  have h1 : p.1 = q.1 := by rw [← hpq]
  have := dfIsoforms_fst_lt hq
  omega

theorem tagMatchRows_sub (dfT : List (Nat × TagCells)) (tg : String) :
    ∀ j ∈ tagMatchRows dfT tg, j ∈ dfT.map (fun p => p.1) := by
  intro j hj
  rcases List.mem_map.mp hj with ⟨p, hp, hpj⟩
  exact List.mem_map.mpr ⟨p, (List.mem_filter.mp hp).1, hpj⟩

theorem bestTagLoop_event_mem (df : List CRow) (pick : List Nat → Nat)
    (dfT : List (Nat × TagCells)) (hne : df ≠ [])
    (hpick : ∀ l : List Nat, l ≠ [] → pick l ∈ l)
    (hbound : ∀ j ∈ dfT.map (fun p => p.1), j < df.length) :
    ∀ tags : List String, ∃ r ∈ df, (bestTagLoop df pick dfT tags).2 = CResult.eventId r.event_id := by
  have hrange : rowIndices df ≠ [] := by
    have : df.length ≠ 0 := fun h0 => hne (List.length_eq_zero.mp h0)
    simp [rowIndices, List.range_eq_nil, this]
  intro tags
  induction tags with
  | nil =>
    have hlt : pick (rowIndices df) < df.length :=
      List.mem_range.mp (by simpa [rowIndices] using hpick _ hrange)
    exact ⟨_, getD_mem _ _ _ hlt, rfl⟩
  | cons tg rest ih =>
    by_cases hm : (tagMatchRows dfT tg).isEmpty = true
    · simpa [bestTagLoop, hm] using ih
    · have hne2 : tagMatchRows dfT tg ≠ [] := by
        simpa [List.isEmpty_iff] using hm
      have hlt : pick (tagMatchRows dfT tg) < df.length :=
        hbound _ (tagMatchRows_sub dfT tg _ (hpick _ hne2))
      refine ⟨df.getD (pick (tagMatchRows dfT tg)) defaultCRow, getD_mem _ _ _ hlt, ?_⟩
      simp [bestTagLoop, hm]

/-- C6: for every non-empty group (with the annotation collaborator total, as
the spec's external interface provides), `consolidate` returns exactly one
(reason, value) pair whose value is an event id drawn from the group's event
column; in particular the no-tags branch that would return a raw isoform row
instead is unreachable. -/
theorem c6_consolidate_returns_group_event_id (db : String → Feature)
    (pick : List Nat → Nat) (df : List CRow) (hne : df ≠ [])
    (hpick : ∀ l : List Nat, l ≠ [] → pick l ∈ l) :
    ∃ r ∈ df, (consolidate db pick df).2 = CResult.eventId r.event_id := by
  have hpos : 0 < df.length := List.length_pos.mpr hne
  unfold consolidate
  by_cases h1 : (df.length == 1) = true
  · simp only [h1, if_true]
    exact ⟨_, getD_mem _ _ _ hpos, rfl⟩
  · by_cases h2 : (dfIsoforms db df).isEmpty = true
    · have hrange : rowIndices df ≠ [] := by
        have : df.length ≠ 0 := by omega
        simp [rowIndices, List.range_eq_nil, this]
      have hlt : pick (rowIndices df) < df.length :=
        List.mem_range.mp (by simpa [rowIndices] using hpick _ hrange)
      simp only [h1, if_false, h2, if_true]
      exact ⟨_, getD_mem _ _ _ hlt, rfl⟩
    · by_cases h3 : ((dfIsoforms db df).length == 1) = true
      · have hne3 : dfIsoforms db df ≠ [] := by
          simpa [List.isEmpty_iff] using h2
        have hhead : (dfIsoforms db df).headD (0, (none, none)) ∈ dfIsoforms db df := by
          rcases hx : dfIsoforms db df with _ | ⟨p, rest⟩
          · exact absurd hx hne3
          · simp
        have hlt : ((dfIsoforms db df).headD (0, (none, none))).1 < df.length :=
          dfIsoforms_fst_lt hhead
        simp only [h1, if_false, h2, if_true, h3]
        exact ⟨_, getD_mem _ _ _ hlt, rfl⟩
      · have hne3 : dfIsoforms db df ≠ [] := by
          simpa [List.isEmpty_iff] using h2
        have h4 : (dfTags (dfIsoforms db df)).isEmpty ≠ true := by
          simpa [List.isEmpty_iff] using dfTags_of_dfIsoforms_ne_nil db df hne3
        simp only [h1, h2, h3, h4, if_false, Bool.false_eq_true]
        exact bestTagLoop_event_mem df pick _ hne hpick (dfTags_fst_lt db df) BEST_TAGS

/-- Witness for C6 on a concrete two-row group. -/
theorem c6_witness :
    ∃ r ∈ dfC6, (consolidate dbW pickW dfC6).2 = CResult.eventId r.event_id :=
  c6_consolidate_returns_group_event_id dbW pickW dfC6 (by decide)
    (fun l hl => by
      cases l with
      | nil => exact absurd rfl hl
      | cons a as => simp [pickW])

theorem isoformCells_isSome (db : String → Feature) (r : CRow) :
    ((isoformCells db r).1.isSome || (isoformCells db r).2.isSome) = rowHasTranscripts r := by
  unfold isoformCells rowHasTranscripts
  cases h1 : r.isoform1_transcripts.isEmpty <;>
    cases h2 : r.isoform2_transcripts.isEmpty <;> simp [h1, h2]

theorem dfIsoforms_aux (db : String → Feature) (l : List (Nat × CRow)) :
    (l.map (fun p => (p.1, isoformCells db p.2))).filter (fun p => p.2.1.isSome || p.2.2.isSome)
      = (l.filter (fun p => rowHasTranscripts p.2)).map (fun p => (p.1, isoformCells db p.2)) := by
  induction l with
  | nil => rfl
  | cons x xs ih =>
    by_cases h : rowHasTranscripts x.2 = true
    · simp [List.filter_cons, isoformCells_isSome, h, ih]
    · simp [List.filter_cons, isoformCells_isSome, h, ih]

/-- C7 (amended): for a group of at least two rows of which exactly one has
resolvable transcripts, `consolidate` returns that row's event id with
reason `one event with gencode transcripts`, for every random oracle. -/
theorem c7_one_annotated_row_deterministic (db : String → Feature) (pick : List Nat → Nat)
    (df : List CRow) (k : Nat) (r : CRow) (h2 : 2 ≤ df.length)
    (hone : (enumFrom 0 df).filter (fun p => rowHasTranscripts p.2) = [(k, r)]) :
    consolidate db pick df = ("one event with gencode transcripts", CResult.eventId r.event_id) := by
  have hiso : dfIsoforms db df = [(k, isoformCells db r)] := by
    unfold dfIsoforms
    rw [dfIsoforms_aux db (enumFrom 0 df), hone]
    rfl
  have hkr : (k, r) ∈ enumFrom 0 df := by
    have hmem : (k, r) ∈ (enumFrom 0 df).filter (fun p => rowHasTranscripts p.2) := by
      rw [hone]
      exact List.mem_cons_self _ _
    exact (List.mem_filter.mp hmem).1
  have hget : df.getD k defaultCRow = r := by
    have hh := mem_enumFrom hkr defaultCRow
    simpa using hh.2.2
  have hlen1 : (df.length == 1) = false := by
    rw [beq_eq_false_iff_ne]
    omega
  simp only [List.getD_eq_getElem?_getD] at hget
  unfold consolidate
  simp only [hlen1, hiso]
  simp [hget]

/-- Counterexample to C7: on a group in which exactly one row has resolvable
transcripts, the reason string is `one event with gencode transcripts`, not
the claimed `one event with annotated transcripts`. -/
theorem c7_counterexample :
    (consolidate dbW pickW dfC7).1 ≠ "one event with annotated transcripts" ∧
    consolidate dbW pickW dfC7 =
      ("one event with gencode transcripts", CResult.eventId "ev1") := by decide

/-- Witness for C7's amended claim on a concrete two-row group. -/
theorem c7_witness :
    consolidate dbW pickW dfC7 = ("one event with gencode transcripts", CResult.eventId "ev1") :=
  c7_one_annotated_row_deterministic dbW pickW dfC7 1 ⟨"ev1", ["t1"], []⟩ (by decide) (by decide)

theorem length_enumFrom {α : Type} (l : List α) : ∀ n : Nat, (enumFrom n l).length = l.length := by
  induction l with
  | nil => intro n; rfl
  | cons x xs ih => intro n; simp [enumFrom, ih]

theorem dfIsoforms_length_le (db : String → Feature) (df : List CRow) :
    (dfIsoforms db df).length ≤ df.length := by
  unfold dfIsoforms
  calc (((enumFrom 0 df).map (fun p => (p.1, isoformCells db p.2))).filter
          (fun p => p.2.1.isSome || p.2.2.isSome)).length
      ≤ ((enumFrom 0 df).map (fun p => (p.1, isoformCells db p.2))).length :=
        List.length_filter_le _ _
    _ = df.length := by simp [length_enumFrom]

theorem ne_nil_isEmpty_false {α : Type} {l : List α} (h : l ≠ []) : l.isEmpty = false := by
  cases l with
  | nil => exact absurd rfl h
  | cons x xs => rfl

theorem consolidate_first_tag_wins (db : String → Feature) (pick : List Nat → Nat)
    (df : List CRow) (h2 : 2 ≤ (dfIsoforms db df).length)
    (hm : tagMatchRows (dfTags (dfIsoforms db df)) "appris_principal" ≠ []) :
    consolidate db pick df = ("best,appris_principal",
      CResult.eventId ((df.getD
        (pick (tagMatchRows (dfTags (dfIsoforms db df)) "appris_principal"))
        defaultCRow).event_id)) := by
  have hle := dfIsoforms_length_le db df
  have hdf1 : (df.length == 1) = false := by
    rw [beq_eq_false_iff_ne]
    omega
  have hisoNe : dfIsoforms db df ≠ [] := by
    intro h0
    rw [h0] at h2
    simp at h2
  have hisoE : (dfIsoforms db df).isEmpty = false := ne_nil_isEmpty_false hisoNe
  have hiso1 : ((dfIsoforms db df).length == 1) = false := by
    rw [beq_eq_false_iff_ne]
    omega
  have hTE : (dfTags (dfIsoforms db df)).isEmpty = false :=
    ne_nil_isEmpty_false (dfTags_of_dfIsoforms_ne_nil db df hisoNe)
  have hmE : (tagMatchRows (dfTags (dfIsoforms db df)) "appris_principal").isEmpty = false :=
    ne_nil_isEmpty_false hm
  have happ : ("best," ++ "appris_principal" : String) = "best,appris_principal" := rfl
  unfold consolidate
  simp only [hdf1, hisoE, hiso1, hTE, Bool.false_eq_true, if_false]
  simp [BEST_TAGS, bestTagLoop, hmE, happ]

/-- C8 (amended): on two rows where one carries the top-priority tag and the
other has transcripts but no tags, `consolidate` returns the tagged row with
reason `best,appris_principal`, for every random oracle. More generally the
first priority tag is selected as soon as some row has any tag at all: the
per-row prefix test produces a nonempty list of booleans, which pandas
truth-tests as a whole, so its content is ignored and the winner is drawn by
the random oracle from the rows having at least one tag. -/
theorem c8_best_tag_selection :
    (∀ (db : String → Feature) (pick : List Nat → Nat),
        (∀ l : List Nat, l ≠ [] → pick l ∈ l) →
        ∀ e0 e1 t0 t1 : String,
          "appris_principal" ∈ (db t0).tag → (db t1).tag = [] →
          consolidate db pick [⟨e0, [t0], []⟩, ⟨e1, [t1], []⟩] =
            ("best,appris_principal", CResult.eventId e0)) ∧
    (∀ (db : String → Feature) (pick : List Nat → Nat) (df : List CRow),
        2 ≤ (dfIsoforms db df).length →
        tagMatchRows (dfTags (dfIsoforms db df)) "appris_principal" ≠ [] →
        consolidate db pick df = ("best,appris_principal",
          CResult.eventId ((df.getD
            (pick (tagMatchRows (dfTags (dfIsoforms db df)) "appris_principal"))
            defaultCRow).event_id))) := by
  constructor
  · intro db pick hpick e0 e1 t0 t1 htag huntag
    have hiso : dfIsoforms db [⟨e0, [t0], []⟩, ⟨e1, [t1], []⟩] =
        [(0, (some [db t0], none)), (1, (some [db t1], none))] := by
      simp [dfIsoforms, enumFrom, isoformCells]
    have htagne : (db t0).tag ≠ [] := List.ne_nil_of_mem htag
    obtain ⟨s, ss, hcons⟩ : ∃ s ss, (db t0).tag = s :: ss := by
      cases h : (db t0).tag with
      | nil => exact absurd h htagne
      | cons s ss => exact ⟨s, ss, rfl⟩
    have hT : dfTags (dfIsoforms db [⟨e0, [t0], []⟩, ⟨e1, [t1], []⟩]) =
        [(0, (some (db t0).tag, none)), (1, (some (db t1).tag, none))] := by
      simp [hiso, dfTags, concatTags]
    have hmatch : tagMatchRows (dfTags (dfIsoforms db [⟨e0, [t0], []⟩, ⟨e1, [t1], []⟩]))
        "appris_principal" = [0] := by
      simp [hT, tagMatchRows, rowAnyTag, tagCellMatch, cellTruthy, hcons, huntag]
    have hres := consolidate_first_tag_wins db pick [⟨e0, [t0], []⟩, ⟨e1, [t1], []⟩]
      (by simp [hiso]) (by rw [hmatch]; simp)
    rw [hmatch] at hres
    have hp0 : pick [0] = 0 := by
      have hmem := hpick [0] (by simp)
      simpa using hmem
    rw [hp0] at hres
    simpa using hres
  · exact fun db pick df h2 hm => consolidate_first_tag_wins db pick df h2 hm

/-- Counterexample to C8's general clause: two rows whose only tag is
`basic` (matching no earlier priority prefix) still win at the first
priority tag, so the reason is `best,appris_principal`, not the claimed
`best,basic`. -/
theorem c8_counterexample :
    (consolidate dbBasic pickW dfC8).1 = "best,appris_principal" ∧
    (consolidate dbBasic pickW dfC8).1 ≠ "best,basic" := by decide

/-- Witness for C8 on a concrete two-row group. -/
theorem c8_witness :
    consolidate dbTop pickW [⟨"a", ["t0"], []⟩, ⟨"b", ["t1"], []⟩] =
      ("best,appris_principal", CResult.eventId "a") :=
  c8_best_tag_selection.1 dbTop pickW
    (fun l hl => by
      cases l with
      | nil => exact absurd rfl hl
      | cons x xs => simp [pickW])
    "a" "b" "t0" "t1" (by decide) (by decide)

theorem overlaps_iff (a b : Region) :
    Region.overlaps a b = true ↔
      (a.chrom = b.chrom ∧ a.strand = b.strand ∧ a.start < b.stop ∧ b.start < a.stop) := by
  simp [Region.overlaps, and_assoc]

theorem overlaps_false_comm {a b : Region} (h : Region.overlaps a b = false) :
    Region.overlaps b a = false := by
  rw [Bool.eq_false_iff] at h ⊢
  intro hba
  apply h
  rw [overlaps_iff] at hba ⊢
  obtain ⟨h1, h2, h3, h4⟩ := hba
  exact ⟨h1.symm, h2.symm, h4, h3⟩

theorem mkRegion_name (geom : String → RegionData) (s : String) :
    (mkRegion geom s).name = s := rfl

theorem minmax_orderedKeyPair (geom : String → RegionData) (sa sb : String)
    (h : Region.overlaps (mkRegion geom sa) (mkRegion geom sb) = false) :
    orderedKeyPair geom (pyMinStart (mkRegion geom sa) (mkRegion geom sb)).name
      (pyMaxStart (mkRegion geom sa) (mkRegion geom sb)).name := by
  unfold orderedKeyPair pyMinStart pyMaxStart
  rcases lt_trichotomy (mkRegion geom sb).start (mkRegion geom sa).start with hlt | heq | hgt
  · rw [if_pos hlt, if_neg (by omega)]
    simp only [mkRegion_name]
    exact Or.inr ⟨overlaps_false_comm h, hlt⟩
  · rw [if_neg (by omega), if_neg (by omega)]
    simp only [mkRegion_name]
    exact Or.inl (by trivial)
  · rw [if_neg (by omega), if_pos hgt]
    simp only [mkRegion_name]
    exact Or.inr ⟨h, hgt⟩

theorem mem_insertEvent {κ β : Type} [BEq κ] {ev : List (κ × β)} {k : κ} {v : β} :
    ∀ e ∈ insertEvent ev k v, e = (k, v) ∨ e ∈ ev := by
  intro e he
  unfold insertEvent at he
  split at he
  · rcases List.mem_map.mp he with ⟨u, hu, heq⟩
    by_cases hk : (u.1 == k) = true
    · left
      rw [← heq]
      simp [hk]
    · right
      rw [← heq]
      simpa [hk] using hu
  · rcases List.mem_append.mp he with h | h
    · right
      exact h
    · left
      simpa using h

theorem foldl_preserves {σ ι : Type} (f : σ → ι → σ) (P : σ → Prop) :
    ∀ (l : List ι) (init : σ), P init → (∀ s x, x ∈ l → P s → P (f s x)) → P (l.foldl f init) := by
  intro l
  induction l with
  | nil => intro init h _; exact h
  | cons x xs ih =>
    intro init h hstep
    exact ih (f init x) (hstep init x (List.mem_cons_self _ _) h)
      (fun s y hy hs => hstep s y (List.mem_cons_of_mem _ hy) hs)

theorem combos2_mem {α : Type} : ∀ (l : List α) (p : α × α), p ∈ combos2 l → p.1 ∈ l ∧ p.2 ∈ l := by
  intro l
  induction l with
  | nil => intro p hp; simp [combos2] at hp
  | cons x xs ih =>
    intro p hp
    rcases List.mem_append.mp hp with h | h
    · rcases List.mem_map.mp h with ⟨y, hy, rfl⟩
      exact ⟨List.mem_cons_self _ _, List.mem_cons_of_mem _ hy⟩
    · obtain ⟨h1, h2⟩ := ih p h
      exact ⟨List.mem_cons_of_mem _ h1, List.mem_cons_of_mem _ h2⟩

theorem seCandidateRegions_mk (E : List Edge) (items : List String) (geom : String → RegionData)
    (x1 : String) : ∀ r ∈ seCandidateRegions E items geom x1, ∃ s, r = mkRegion geom s := by
  intro r hr
  rcases List.mem_map.mp hr with ⟨i, hi, rfl⟩
  exact ⟨items.getD i "", rfl⟩

theorem mxeCandidateRegions_mk (E : List Edge) (items : List String) (geom : String → RegionData)
    (x1 : String) : ∀ r ∈ mxeCandidateRegions E items geom x1, ∃ s, r = mkRegion geom s := by
  intro r hr
  rcases List.mem_map.mp hr with ⟨i, hi, rfl⟩
  exact ⟨items.getD i "", rfl⟩

theorem sePairStep_preserves (E : List Edge) (items : List String) (geom : String → RegionData)
    (x1 : String) (ev : List (SEKey × List String)) (pq : Region × Region)
    (ha : ∃ s, pq.1 = mkRegion geom s) (hb : ∃ s, pq.2 = mkRegion geom s)
    (hev : ∀ e ∈ ev, orderedKeyPair geom e.1.2.1 e.1.2.2) :
    ∀ e ∈ sePairStep E items x1 ev pq, orderedKeyPair geom e.1.2.1 e.1.2.2 := by
  intro e he
  by_cases hov : Region.overlaps pq.1 pq.2 = true
  · rw [sePairStep, if_pos hov] at he
    exact hev e he
  · have hov2 : Region.overlaps pq.1 pq.2 = false := by
      rw [Bool.eq_false_iff]
      exact hov
    by_cases hacc : seAccept E items (pyMinStart pq.1 pq.2).name (pyMaxStart pq.1 pq.2).name = true
    · rw [sePairStep, if_neg hov, if_pos hacc] at he
      rcases mem_insertEvent e he with rfl | hmem
      · show orderedKeyPair geom (pyMinStart pq.1 pq.2).name (pyMaxStart pq.1 pq.2).name
        obtain ⟨sa, hsa⟩ := ha
        obtain ⟨sb, hsb⟩ := hb
        rw [hsa, hsb]
        refine minmax_orderedKeyPair geom sa sb ?_
        rw [← hsa, ← hsb]
        exact hov2
      · exact hev e hmem
    · rw [sePairStep, if_neg hov, if_neg hacc] at he
      exact hev e he

theorem mxePairStep_preserves (E : List Edge) (items : List String) (geom : String → RegionData)
    (x1 : String) (ev : List (MXEKey × List String)) (pq : Region × Region)
    (ha : ∃ s, pq.1 = mkRegion geom s) (hb : ∃ s, pq.2 = mkRegion geom s)
    (hev : ∀ e ∈ ev, orderedKeyPair geom e.1.2.1 e.1.2.2.1) :
    ∀ e ∈ mxePairStep E items x1 ev pq, orderedKeyPair geom e.1.2.1 e.1.2.2.1 := by
  intro e he
  by_cases hov : Region.overlaps pq.1 pq.2 = true
  · rw [mxePairStep, if_pos hov] at he
    exact hev e he
  · rw [mxePairStep, if_neg hov] at he
    rcases hc : mxeCommonExon4 E items (pyMinStart pq.1 pq.2).name (pyMaxStart pq.1 pq.2).name with
      _ | ⟨e4i, rest⟩
    · rw [hc] at he
      exact hev e he
    · rw [hc] at he
      rcases mem_insertEvent e he with rfl | hmem
      · show orderedKeyPair geom (pyMinStart pq.1 pq.2).name (pyMaxStart pq.1 pq.2).name
        obtain ⟨sa, hsa⟩ := ha
        obtain ⟨sb, hsb⟩ := hb
        rw [hsa, hsb]
        refine minmax_orderedKeyPair geom sa sb ?_
        rw [← hsa, ← hsb]
        rw [Bool.eq_false_iff]
        exact hov
      · exact hev e hmem

theorem seEventsDict_ordered (E : List Edge) (items : List String) (geom : String → RegionData)
    (exons : List String) :
    ∀ e ∈ seEventsDict E items geom exons, orderedKeyPair geom e.1.2.1 e.1.2.2 := by
  unfold seEventsDict
  refine foldl_preserves (seExonStep E items geom)
    (fun ev => ∀ e ∈ ev, orderedKeyPair geom e.1.2.1 e.1.2.2) exons [] ?_ ?_
  · intro e he
    simp at he
  · intro ev x1 hx1 hev
    unfold seExonStep
    refine foldl_preserves (sePairStep E items x1)
      (fun ev => ∀ e ∈ ev, orderedKeyPair geom e.1.2.1 e.1.2.2) _ ev hev ?_
    intro s pq hpq hs
    have hmem := combos2_mem _ pq hpq
    exact sePairStep_preserves E items geom x1 s pq
      (seCandidateRegions_mk E items geom x1 pq.1 hmem.1)
      (seCandidateRegions_mk E items geom x1 pq.2 hmem.2) hs

theorem mxeEventsDict_ordered (E : List Edge) (items : List String) (geom : String → RegionData)
    (exons : List String) :
    ∀ e ∈ mxeEventsDict E items geom exons, orderedKeyPair geom e.1.2.1 e.1.2.2.1 := by
  unfold mxeEventsDict
  refine foldl_preserves (mxeExonStep E items geom)
    (fun ev => ∀ e ∈ ev, orderedKeyPair geom e.1.2.1 e.1.2.2.1) exons [] ?_ ?_
  · intro e he
    simp at he
  · intro ev x1 hx1 hev
    unfold mxeExonStep
    refine foldl_preserves (mxePairStep E items x1)
      (fun ev => ∀ e ∈ ev, orderedKeyPair geom e.1.2.1 e.1.2.2.1) _ ev hev ?_
    intro s pq hpq hs
    have hmem := combos2_mem _ pq hpq
    exact mxePairStep_preserves E items geom x1 s pq
      (mxeCandidateRegions_mk E items geom x1 pq.1 hmem.1)
      (mxeCandidateRegions_mk E items geom x1 pq.2 hmem.2) hs

theorem seEventsToDf_mem : ∀ (d : List (SEKey × List String)) (rows : List SERow),
    seEventsToDf d = Except.ok rows →
    ∀ r ∈ rows, ∃ e, e ∈ d ∧ r.exon2 = e.1.2.1 ∧ r.exon3 = e.1.2.2 := by
  intro d
  induction d with
  | nil =>
    intro rows h r hr
    unfold seEventsToDf at h
    injection h with h
    subst h
    simp at hr
  | cons p rest ih =>
    intro rows h r hr
    obtain ⟨k, js⟩ := p
    unfold seEventsToDf at h
    split at h
    · split at h
      · injection h with h
        subst h
        rcases List.mem_cons.mp hr with hr | hr
        · subst hr
          exact ⟨(k, _), List.mem_cons_self _ _, rfl, rfl⟩
        · obtain ⟨e, he, h2, h3⟩ := ih _ (by assumption) r hr
          exact ⟨e, List.mem_cons_of_mem _ he, h2, h3⟩
      · exact absurd h (by simp)
    · exact absurd h (by simp)

theorem mxeEventsToDf_mem : ∀ (d : List (MXEKey × List String)) (rows : List MXERow),
    mxeEventsToDf d = Except.ok rows →
    ∀ r ∈ rows, ∃ e, e ∈ d ∧ r.exon2 = e.1.2.1 ∧ r.exon3 = e.1.2.2.1 := by
  intro d
  induction d with
  | nil =>
    intro rows h r hr
    unfold mxeEventsToDf at h
    injection h with h
    subst h
    simp at hr
  | cons p rest ih =>
    intro rows h r hr
    obtain ⟨k, js⟩ := p
    unfold mxeEventsToDf at h
    split at h
    · split at h
      · injection h with h
        subst h
        rcases List.mem_cons.mp hr with hr | hr
        · subst hr
          exact ⟨(k, _), List.mem_cons_self _ _, rfl, rfl⟩
        · obtain ⟨e, he, h2, h3⟩ := ih _ (by assumption) r hr
          exact ⟨e, List.mem_cons_of_mem _ he, h2, h3⟩
      · exact absurd h (by simp)
    · exact absurd h (by simp)

/-- C3 (amended): in every emitted event of either detector, the exon2 and
exon3 columns satisfy exon2.start < exon3.start unless they are the very
same item; the positions of exon1 (and exon4) relative to the others are not
constrained at all. -/
theorem c3_emitted_pair_order :
    (∀ (triples : List Triple) (geom : String → RegionData) (rows : List SERow),
        skippedExon triples geom = Except.ok rows →
        ∀ r ∈ rows, r.exon2 = r.exon3 ∨
          (mkRegion geom r.exon2).start < (mkRegion geom r.exon3).start) ∧
    (∀ (triples : List Triple) (geom : String → RegionData) (rows : List MXERow),
        mutuallyExclusiveExon triples geom = Except.ok rows →
        ∀ r ∈ rows, r.exon2 = r.exon3 ∨
          (mkRegion geom r.exon2).start < (mkRegion geom r.exon3).start) := by
  constructor
  · intro triples geom rows h r hr
    unfold skippedExon at h
    split at h
    · exact absurd h (by simp)
    · obtain ⟨e, he, h2, h3⟩ := seEventsToDf_mem _ _ h r hr
      have hp := seEventsDict_ordered _ _ geom _ e he
      rw [h2, h3]
      rcases hp with heq | ⟨hov, hlt⟩
      · exact Or.inl heq
      · exact Or.inr hlt
  · intro triples geom rows h r hr
    unfold mutuallyExclusiveExon at h
    split at h
    · exact absurd h (by simp)
    · obtain ⟨e, he, h2, h3⟩ := mxeEventsToDf_mem _ _ h r hr
      have hp := mxeEventsDict_ordered _ _ geom _ e he
      rw [h2, h3]
      rcases hp with heq | ⟨hov, hlt⟩
      · exact Or.inl heq
      · exact Or.inr hlt

/-- Witness for C3's amended claim, on the end-to-end scenario row. -/
theorem c3_witness :
    ("e2" : String) = "e3" ∨ (mkRegion geomC2 "e2").start < (mkRegion geomC2 "e3").start :=
  c3_emitted_pair_order.1 triplesC2 geomC2
    [⟨"e1", "e2", "e3", "j1", "j2", "j3", "e1@e2@e3"⟩] (by decide)
    ⟨"e1", "e2", "e3", "j1", "j2", "j3", "e1@e2@e3"⟩ (by decide)

/-- C4 (amended): in every emitted event of either detector, the exon2 and
exon3 columns are non-overlapping unless they are the very same item; the
pairs involving exon1 (and exon4) are not constrained at all. -/
theorem c4_emitted_pair_disjoint :
    (∀ (triples : List Triple) (geom : String → RegionData) (rows : List SERow),
        skippedExon triples geom = Except.ok rows →
        ∀ r ∈ rows, r.exon2 = r.exon3 ∨
          Region.overlaps (mkRegion geom r.exon2) (mkRegion geom r.exon3) = false) ∧
    (∀ (triples : List Triple) (geom : String → RegionData) (rows : List MXERow),
        mutuallyExclusiveExon triples geom = Except.ok rows →
        ∀ r ∈ rows, r.exon2 = r.exon3 ∨
          Region.overlaps (mkRegion geom r.exon2) (mkRegion geom r.exon3) = false) := by
  constructor
  · intro triples geom rows h r hr
    unfold skippedExon at h
    split at h
    · exact absurd h (by simp)
    · obtain ⟨e, he, h2, h3⟩ := seEventsToDf_mem _ _ h r hr
      have hp := seEventsDict_ordered _ _ geom _ e he
      rw [h2, h3]
      rcases hp with heq | ⟨hov, hlt⟩
      · exact Or.inl heq
      · exact Or.inr hov
  · intro triples geom rows h r hr
    unfold mutuallyExclusiveExon at h
    split at h
    · exact absurd h (by simp)
    · obtain ⟨e, he, h2, h3⟩ := mxeEventsToDf_mem _ _ h r hr
      have hp := mxeEventsDict_ordered _ _ geom _ e he
      rw [h2, h3]
      rcases hp with heq | ⟨hov, hlt⟩
      · exact Or.inl heq
      · exact Or.inr hov

/-- Witness for C4's amended claim, on the end-to-end scenario row. -/
theorem c4_witness :
    ("e2" : String) = "e3" ∨
      Region.overlaps (mkRegion geomC2 "e2") (mkRegion geomC2 "e3") = false :=
  c4_emitted_pair_disjoint.1 triplesC2 geomC2
    [⟨"e1", "e2", "e3", "j1", "j2", "j3", "e1@e2@e3"⟩] (by decide)
    ⟨"e1", "e2", "e3", "j1", "j2", "j3", "e1@e2@e3"⟩ (by decide)

theorem seEventsToDf_total : ∀ (d : List (SEKey × List String)), (∀ e ∈ d, e.2.length = 3) →
    ∃ rows, seEventsToDf d = Except.ok rows ∧ rows.length = d.length := by
  intro d
  induction d with
  | nil => intro h; exact ⟨[], rfl, rfl⟩
  | cons p rest ih =>
    intro h
    obtain ⟨k, js⟩ := p
    have h3 : js.length = 3 := h (k, js) (List.mem_cons_self _ _)
    obtain ⟨rows0, hok, hlen⟩ := ih (fun e he => h e (List.mem_cons_of_mem _ he))
    rcases js with _ | ⟨a, _ | ⟨b, _ | ⟨c, _ | ⟨x, tl⟩⟩⟩⟩ <;> simp at h3
    exact ⟨⟨k.1, k.2.1, k.2.2, a, b, c, String.intercalate "@" [k.1, k.2.1, k.2.2]⟩ :: rows0,
      by simp [seEventsToDf, hok], by simp [hlen]⟩

theorem mxeEventsToDf_total : ∀ (d : List (MXEKey × List String)), (∀ e ∈ d, e.2.length = 4) →
    ∃ rows, mxeEventsToDf d = Except.ok rows ∧ rows.length = d.length := by
  intro d
  induction d with
  | nil => intro h; exact ⟨[], rfl, rfl⟩
  | cons p rest ih =>
    intro h
    obtain ⟨k, js⟩ := p
    have h4 : js.length = 4 := h (k, js) (List.mem_cons_self _ _)
    obtain ⟨rows0, hok, hlen⟩ := ih (fun e he => h e (List.mem_cons_of_mem _ he))
    rcases js with _ | ⟨a, _ | ⟨b, _ | ⟨c, _ | ⟨dd, _ | ⟨x, tl⟩⟩⟩⟩⟩ <;> simp at h4
    exact ⟨⟨k.1, k.2.1, k.2.2.1, k.2.2.2, a, b, c, dd,
        String.intercalate "@" [k.1, k.2.1, k.2.2.1, k.2.2.2]⟩ :: rows0,
      by simp [mxeEventsToDf, hok], by simp [hlen]⟩

/-- C5 (amended): with a valid triple table the build succeeds and a detector
run completes and returns the full event table (one row per accumulated
event) provided every accepted candidate's junction list has exactly one
junction per junction column (3 for skipped exon, 4 for MXE); when an
isoform-junction intersection yields several junctions, the run instead
raises mid-run while assembling the result table, after detection. -/
theorem c5_detector_completes :
    (∀ (triples : List Triple) (geom : String → RegionData),
        (triples.all (fun t => t.direction == UPSTREAM || t.direction == DOWNSTREAM)) = true →
        (∀ e ∈ seEventsDict (graphEdges (itemsOf triples) triples) (itemsOf triples) geom
            (exonsOf triples), e.2.length = 3) →
        ∃ rows, skippedExon triples geom = Except.ok rows ∧
          rows.length = (seEventsDict (graphEdges (itemsOf triples) triples) (itemsOf triples)
            geom (exonsOf triples)).length) ∧
    (∀ (triples : List Triple) (geom : String → RegionData),
        (triples.all (fun t => t.direction == UPSTREAM || t.direction == DOWNSTREAM)) = true →
        (∀ e ∈ mxeEventsDict (graphEdges (itemsOf triples) triples) (itemsOf triples) geom
            (exonsOf triples), e.2.length = 4) →
        ∃ rows, mutuallyExclusiveExon triples geom = Except.ok rows ∧
          rows.length = (mxeEventsDict (graphEdges (itemsOf triples) triples) (itemsOf triples)
            geom (exonsOf triples)).length) := by
  constructor
  · intro triples geom hdir h3
    have hb : buildGraph triples (itemsOf triples) =
        Except.ok (graphEdges (itemsOf triples) triples) := by
      unfold buildGraph
      rw [if_pos hdir]
    obtain ⟨rows, hok, hlen⟩ := seEventsToDf_total _ h3
    refine ⟨rows, ?_, hlen⟩
    unfold skippedExon
    rw [hb]
    exact hok
  · intro triples geom hdir h4
    have hb : buildGraph triples (itemsOf triples) =
        Except.ok (graphEdges (itemsOf triples) triples) := by
      unfold buildGraph
      rw [if_pos hdir]
    obtain ⟨rows, hok, hlen⟩ := mxeEventsToDf_total _ h4
    refine ⟨rows, ?_, hlen⟩
    unfold mutuallyExclusiveExon
    rw [hb]
    exact hok

/-- Witness for C5's amended claim on the end-to-end scenario. -/
theorem c5_witness :
    ∃ rows, skippedExon triplesC2 geomC2 = Except.ok rows ∧
      rows.length = (seEventsDict (graphEdges (itemsOf triplesC2) triplesC2) (itemsOf triplesC2)
        geomC2 (exonsOf triplesC2)).length :=
  c5_detector_completes.1 triplesC2 geomC2 (by decide) (by decide)
